import Mathlib

/-!
Shallow embedding of the Obsidian "smooth typing animation" plugin
(`src/main.ts`, settings module), together with theorems checking the
natural-language specification against the code.

Numbers are modelled as rationals (`ℚ`); JavaScript `null`/missing values
as `Option`.  State mutated through `this.…` fields is passed explicitly.
-/

namespace SmoothTyping

/-- Logical caret location, the source type `Position = { line, ch }`. -/
structure Position where
  line : Int
  ch : Int
deriving DecidableEq, Repr

/-- Pixel coordinates, the source type `Coordinates = { left, top }`. -/
structure Coordinates where
  left : ℚ
  top : ℚ
deriving DecidableEq, Repr

/-- Settings record, the `SmoothTypingSettings` interface of the settings module. -/
structure Settings where
  blinkSpeed : ℚ
  blinkDelay : ℚ
  characterMovementTime : ℚ
  cursorWidth : ℚ
  cursorColor : Option String
deriving DecidableEq, Repr

/-- Default settings record `DEFAULT_SETTINGS` from the settings module. -/
def DEFAULT_SETTINGS : Settings :=
  { blinkSpeed := 1.2
    blinkDelay := 0
    characterMovementTime := 80
    cursorWidth := 1
    cursorColor := some "#ffffff" }

/-- A stored settings record as returned by `loadData()`: each field may be
missing (outer `Option` layer absent ⇒ `Object.assign` keeps the default);
`cursorColor` may additionally be stored as an explicit `null`. -/
structure StoredSettings where
  blinkSpeed : Option ℚ
  blinkDelay : Option ℚ
  characterMovementTime : Option ℚ
  cursorWidth : Option ℚ
  cursorColor : Option (Option String)
deriving DecidableEq, Repr

/-- Settings loader `loadSettings`: `Object.assign` of the stored record over
`DEFAULT_SETTINGS`; `none` models `loadData()` returning no stored data at all. -/
def loadSettings (stored : Option StoredSettings) : Settings :=
  match stored with
  | none => DEFAULT_SETTINGS
  | some p =>
    { blinkSpeed := p.blinkSpeed.getD DEFAULT_SETTINGS.blinkSpeed
      blinkDelay := p.blinkDelay.getD DEFAULT_SETTINGS.blinkDelay
      characterMovementTime := p.characterMovementTime.getD DEFAULT_SETTINGS.characterMovementTime
      cursorWidth := p.cursorWidth.getD DEFAULT_SETTINGS.cursorWidth
      cursorColor := p.cursorColor.getD DEFAULT_SETTINGS.cursorColor }

/-- Colour setter `changeCursorColour(colour = null)`: with no argument the colour is picked
from the theme (`document.body.classList.contains('theme-dark')`); the value
written to the `--cursor-color` CSS property is returned. -/
def changeCursorColour (containsThemeDark : Bool) (colour : Option String) : String :=
  match colour with
  | none =>
    let isLightTheme := if containsThemeDark then false else true
    if isLightTheme then "#000000" else "#ffffff"
  | some c => c

/-- The colour applied during `onload`, which calls `this.changeCursorColour()`
with no argument after `loadSettings`; the settings record is in scope but the
call passes nothing from it. -/
def onloadCursorColour (_s : Settings) (containsThemeDark : Bool) : String :=
  changeCursorColour containsThemeDark none

/-! Blink engine -/

/-- JavaScript remainder `a % b` on rationals: `a - b * trunc (a / b)`
(truncated, sign of the dividend). -/
def jsMod (a b : ℚ) : ℚ :=
  if 0 ≤ a / b then a - b * ⌊a / b⌋ else a - b * ⌈a / b⌉

/-- Blink-engine state: `this.blinkStartTime` plus the pending
`requestAnimationFrame(() => { this.blinkStartTime = Date.now(); })` callback
(scheduled, not yet run). -/
structure BlinkState where
  blinkStartTime : ℚ
  pendingReset : Bool
deriving DecidableEq, Repr

/-- Blink engine `blinkCursor(cursorPosChanged)`: returns the opacity and the blink state
after the call.  `resetCursor` only *schedules* the timestamp reset
(`pendingReset := true`); `blinkStartTime` itself is untouched. -/
def blinkCursor (blinkDelay blinkSpeed : ℚ) (now : ℚ) (st : BlinkState)
    (cursorPosChanged : Bool) : ℚ × BlinkState :=
  if cursorPosChanged then (1, { st with pendingReset := true }) else
  let timePassed := now - st.blinkStartTime - blinkDelay * 1000
  let blinkMs := blinkSpeed * 1000
  if timePassed < 0 then (1, st)
  else if jsMod timePassed blinkMs < blinkMs / 2 then (1, st)
  else (0, st)

/-- Running a pending blink reset at a frame-callback boundary: the scheduled
callback stores the *current* time into `blinkStartTime`. -/
def applyPendingReset (now : ℚ) (st : BlinkState) : BlinkState :=
  if st.pendingReset then { blinkStartTime := now, pendingReset := false } else st

/-! Smooth-move engine -/

/-- The `this` fields read and written by `handleSmoothTyping`. -/
structure SmoothState where
  prevCursorPos : Option Position
  prevCursorCoords : Coordinates
  remainingMoveTime : ℚ
deriving DecidableEq, Repr

/-- The `returnStatement` closure of `handleSmoothTyping`: a zero fraction
clears `remainingMoveTime`; `prevCursorPos` is always set to the current
position. -/
def returnStatement (st : SmoothState) (currCursorPos : Option Position)
    (fractionTravelled : ℚ) : ℚ × SmoothState :=
  let st := if fractionTravelled = 0 then { st with remainingMoveTime := 0 } else st
  (fractionTravelled, { st with prevCursorPos := currCursorPos })

/-- The movement-classification section of `handleSmoothTyping` (the
`charIncremented`/`charMoved`/`lineMoved` tests): the value held by
`this.remainingMoveTime` when the classification block falls through. -/
def classifyMove (characterMovementTime : ℚ) (st : SmoothState)
    (prev curr : Position) (currCursorCoords : Coordinates) : ℚ :=
  -- charIncremented = (|prev.ch - curr.ch| = 1), charMoved = (|prev.ch - curr.ch| ≠ 0),
  -- lineMoved = (|prev.line - curr.line| ≠ 0)
  if (|prev.ch - curr.ch| ≠ 0 ∧ ¬ |prev.ch - curr.ch| = 1) ∨ |prev.line - curr.line| ≠ 0 then 0
  else if |prev.ch - curr.ch| = 1 ∧ ¬ |prev.line - curr.line| ≠ 0 then
    (if currCursorCoords.top ≠ st.prevCursorCoords.top then 0
     else characterMovementTime)
  else st.remainingMoveTime

/-- Smooth-move engine `handleSmoothTyping(currCursorPos, currCursorCoords,
timeSinceLastFrame)`: returns the fraction of the remaining distance to travel this frame together
with the updated `this` fields. -/
def handleSmoothTyping (characterMovementTime : ℚ) (st : SmoothState)
    (currCursorPos : Option Position) (currCursorCoords : Coordinates)
    (timeSinceLastFrame : ℚ) : ℚ × SmoothState :=
  match currCursorPos, st.prevCursorPos with
  | some curr, some prev =>
    let st := { st with
      remainingMoveTime := classifyMove characterMovementTime st prev curr currCursorCoords }
    if st.remainingMoveTime ≤ 0 then returnStatement st currCursorPos 0
    else
      let fractionTravelled := min (timeSinceLastFrame / st.remainingMoveTime) 1
      let st := { st with
        remainingMoveTime := max 0 (st.remainingMoveTime - timeSinceLastFrame) }
      returnStatement st currCursorPos fractionTravelled
  | _, _ => returnStatement st currCursorPos 0



/-- Frames the spec calls "sharp" or caret-losing: previous/current grid
position absent, a line change, a column delta other than 0 or 1, or a
single-column same-line step whose vertical pixel coordinate changed. -/
def sharpOrAbsentFrame (st : SmoothState) (currCursorPos : Option Position)
    (currCursorCoords : Coordinates) : Prop :=
  match currCursorPos, st.prevCursorPos with
  | some curr, some prev =>
    prev.line ≠ curr.line ∨
    (|prev.ch - curr.ch| ≠ 0 ∧ |prev.ch - curr.ch| ≠ 1) ∨
    (|prev.ch - curr.ch| = 1 ∧ prev.line = curr.line ∧
      currCursorCoords.top ≠ st.prevCursorCoords.top)
  | _, _ => True

/-! Frame loop, the `updateCursor` tick -/

/-- The `this` fields of the plugin that persist across frames
(the spec's `AnimationState`), plus the pending blink reset. -/
structure AnimState where
  prevCursorCoords : Coordinates
  prevCursorPos : Option Position
  prevIconCoords : Option Coordinates
  prevFrameTime : ℚ
  blink : BlinkState
  remainingMoveTime : ℚ
deriving DecidableEq, Repr

/-- Ambient host state sampled by one `updateCursor` tick: the current time,
whether `selection`/`selection.focusNode` exist, whether the editor container
carries `cm-focused`, and the measured caret grid position and bounding box. -/
structure FrameInput where
  now : ℚ
  hasSelectionFocus : Bool
  editorFocused : Bool
  currCursorPos : Position
  currCursorCoords : Coordinates
  caretHeight : ℚ
deriving DecidableEq, Repr

/-- The CSS custom properties written by the compositor. -/
structure CssProps where
  x : ℚ
  y : ℚ
  height : ℚ
  width : ℚ
  opacity : ℚ
deriving DecidableEq, Repr

/-- Observable outcome of one tick: the `!selection || !selection.focusNode`
early return, the unfocused early return (icon hidden), or a rendered frame
(icon shown) with the smooth-move fraction and the written CSS properties. -/
inductive FrameOutput where
  | noSelection : FrameOutput
  | unfocused : FrameOutput
  | rendered (fraction : ℚ) (css : CssProps) : FrameOutput
deriving DecidableEq, Repr

/-- One call of `updateCursor` (`main.ts`), minus the re-scheduling: samples
the host state in `inp`, runs the blink and smooth-move engines, composites
the icon position, and updates the persistent fields. -/
def updateCursor (s : Settings) (inp : FrameInput) (st : AnimState) :
    AnimState × FrameOutput :=
  -- getTimeSinceLastFrame(): also stores the current time
  let timeSinceLastFrame := inp.now - st.prevFrameTime
  let st := { st with prevFrameTime := inp.now }
  -- if (!selection || !selection.focusNode) return
  if inp.hasSelectionFocus = false then (st, FrameOutput.noSelection)
  -- if (!editor ... 'cm-focused') removeIcon() and return
  else if inp.editorFocused = false then (st, FrameOutput.unfocused)
  else
    let currCursorPos := inp.currCursorPos
    let currCursorCoords := inp.currCursorCoords
    let cursorCoordinatesChanged : Bool :=
      if st.prevCursorCoords.left ≠ currCursorCoords.left ∨
          st.prevCursorCoords.top ≠ currCursorCoords.top then true else false
    let blinkRes := blinkCursor s.blinkDelay s.blinkSpeed inp.now st.blink
      cursorCoordinatesChanged
    let smoothRes := handleSmoothTyping s.characterMovementTime
      { prevCursorPos := st.prevCursorPos, prevCursorCoords := st.prevCursorCoords,
        remainingMoveTime := st.remainingMoveTime }
      (some currCursorPos) currCursorCoords timeSinceLastFrame
    let iconMovementFraction := smoothRes.1
    let currIconCoords : Coordinates :=
      match st.prevIconCoords with
      | some prevIcon =>
        if iconMovementFraction ≠ 0 then
          { left := prevIcon.left +
              iconMovementFraction * (currCursorCoords.left - prevIcon.left),
            top := prevIcon.top +
              iconMovementFraction * (currCursorCoords.top - prevIcon.top) }
        else currCursorCoords
      | none => currCursorCoords
    let css : CssProps :=
      { x := currIconCoords.left, y := currIconCoords.top,
        height := inp.caretHeight, width := s.cursorWidth, opacity := blinkRes.1 }
    let st := { st with
      prevCursorCoords := { left := currCursorCoords.left, top := currCursorCoords.top },
      prevCursorPos := smoothRes.2.prevCursorPos,
      prevIconCoords := some currIconCoords,
      remainingMoveTime := smoothRes.2.remainingMoveTime,
      blink := blinkRes.2 }
    (st, FrameOutput.rendered iconMovementFraction css)

/-- One full frame-callback turn: any pending blink reset scheduled during the
previous tick runs first (it was registered earlier), then `updateCursor`. -/
def frameTick (s : Settings) (inp : FrameInput) (st : AnimState) :
    AnimState × FrameOutput :=
  updateCursor s inp { st with blink := applyPendingReset inp.now st.blink }

/-- Run a sequence of frame callbacks, collecting the per-frame outputs. -/
def runFrames (s : Settings) (st : AnimState) :
    List FrameInput → AnimState × List FrameOutput
  | [] => (st, [])
  | inp :: rest =>
    let r := frameTick s inp st
    let rr := runFrames s r.1 rest
    (rr.1, r.2 :: rr.2)

/-- The smooth-move fraction observable in a tick outcome. -/
def fractionOf : FrameOutput → ℚ
  | FrameOutput.rendered f _ => f
  | _ => 0

/-- The icon x coordinate written in a tick outcome. -/
def iconX : FrameOutput → ℚ
  | FrameOutput.rendered _ css => css.x
  | _ => 0


/-- Initial animation state for the C6 scenario: icon and caret at rest at the
origin, no interpolation in flight, last frame at t = 0. -/
def scenarioInitState : AnimState :=
  { prevCursorCoords := ⟨0, 0⟩, prevCursorPos := some ⟨0, 0⟩,
    prevIconCoords := some ⟨0, 0⟩, prevFrameTime := 0,
    blink := ⟨0, false⟩, remainingMoveTime := 0 }

/-- Frame inputs for the C6 scenario: a single smooth column step at t = 0
(seen by the first frame) moving the caret bounding box by (10px, 0px), then
four still frames, with a constant 16 ms frame interval. -/
def scenarioInputs : List FrameInput :=
  [⟨16, true, true, ⟨0, 1⟩, ⟨10, 0⟩, 18⟩,
   ⟨32, true, true, ⟨0, 1⟩, ⟨10, 0⟩, 18⟩,
   ⟨48, true, true, ⟨0, 1⟩, ⟨10, 0⟩, 18⟩,
   ⟨64, true, true, ⟨0, 1⟩, ⟨10, 0⟩, 18⟩,
   ⟨80, true, true, ⟨0, 1⟩, ⟨10, 0⟩, 18⟩]


lemma classifyMove_of_sharp (cmt : ℚ) (st : SmoothState) (prev curr : Position)
    (coords : Coordinates)
    (h : prev.line ≠ curr.line ∨
      (|prev.ch - curr.ch| ≠ 0 ∧ |prev.ch - curr.ch| ≠ 1) ∨
      (|prev.ch - curr.ch| = 1 ∧ prev.line = curr.line ∧
        coords.top ≠ st.prevCursorCoords.top)) :
    classifyMove cmt st prev curr coords = 0 := by
  have hline : prev.line ≠ curr.line ↔ |prev.line - curr.line| ≠ 0 := by
    simp [sub_eq_zero]
  unfold classifyMove
  rcases h with h | ⟨h1, h2⟩ | ⟨h1, h2, h3⟩
  · rw [if_pos (Or.inr (hline.mp h))]
  · rw [if_pos (Or.inl ⟨h1, h2⟩)]
  · have hl : ¬ |prev.line - curr.line| ≠ 0 := by simpa [sub_eq_zero] using h2
    rw [if_neg, if_pos ⟨h1, hl⟩, if_pos h3]
    rintro (⟨_, hc⟩ | hc)
    · exact hc h1
    · exact hl hc

lemma handleSmoothTyping_of_nonpos (cmt tsf : ℚ) (st : SmoothState)
    (curr prev : Position) (coords : Coordinates)
    (hp : st.prevCursorPos = some prev)
    (hC : classifyMove cmt st prev curr coords ≤ 0) :
    handleSmoothTyping cmt st (some curr) coords tsf =
      (0, { st with prevCursorPos := some curr, remainingMoveTime := 0 }) := by
  obtain ⟨pp, pc, pr⟩ := st
  simp only [SmoothState.mk.injEq] at hp ⊢
  subst hp
  simp only [handleSmoothTyping, returnStatement]
  rw [if_pos]
  · simp
  · exact hC


lemma handleSmoothTyping_of_pos (cmt tsf : ℚ) (st : SmoothState)
    (curr prev : Position) (coords : Coordinates)
    (hp : st.prevCursorPos = some prev)
    (hC : 0 < classifyMove cmt st prev curr coords) :
    handleSmoothTyping cmt st (some curr) coords tsf =
      (min (tsf / classifyMove cmt st prev curr coords) 1,
       { st with prevCursorPos := some curr,
                 remainingMoveTime :=
                   if min (tsf / classifyMove cmt st prev curr coords) 1 = 0 then 0
                   else max 0 (classifyMove cmt st prev curr coords - tsf) }) := by
  obtain ⟨pp, pc, pr⟩ := st
  simp only [SmoothState.mk.injEq] at hp
  subst hp
  simp only [handleSmoothTyping, returnStatement]
  rw [if_neg (not_le.mpr hC)]
  by_cases h : min (tsf / classifyMove cmt ⟨some prev, pc, pr⟩ prev curr coords) 1 = 0 <;>
    simp [h]

lemma min_div_one_eq_zero_iff (t r : ℚ) (hr : 0 < r) :
    min (t / r) 1 = 0 ↔ t = 0 := by
  constructor
  · intro h
    rcases min_choice (t / r) 1 with hm | hm <;> rw [hm] at h
    · exact (div_eq_zero_iff.mp h).elim id fun hz => absurd hz (ne_of_gt hr)
    · exact absurd h one_ne_zero
  · intro h
    subst h
    simp [min_eq_left, zero_le_one]


lemma handleSmoothTyping_of_absent (cmt tsf : ℚ) (st : SmoothState)
    (currPos : Option Position) (coords : Coordinates)
    (h : currPos = none ∨ st.prevCursorPos = none) :
    handleSmoothTyping cmt st currPos coords tsf =
      (0, { st with prevCursorPos := currPos, remainingMoveTime := 0 }) := by
  obtain ⟨pp, pc, pr⟩ := st
  rcases h with h | h
  · subst h
    rcases pp with _ | p <;> simp [handleSmoothTyping, returnStatement]
  · simp only at h
    subst h
    rcases currPos with _ | c <;> simp [handleSmoothTyping, returnStatement]

lemma handleSmoothTyping_prevCursorPos (cmt tsf : ℚ) (st : SmoothState)
    (currPos : Option Position) (coords : Coordinates) :
    (handleSmoothTyping cmt st currPos coords tsf).2.prevCursorPos = currPos := by
  obtain ⟨pp, pc, pr⟩ := st
  rcases currPos with _ | c <;> rcases pp with _ | p
  all_goals simp only [handleSmoothTyping, returnStatement]
  all_goals split_ifs <;> simp

lemma classifyMove_self (cmt : ℚ) (st : SmoothState) (c : Position)
    (coords : Coordinates) :
    classifyMove cmt st c c coords = st.remainingMoveTime := by
  simp [classifyMove]


/-- C2: every sharp transition (line change, column delta other than 0 or 1, or a
column step of 1 on the same line whose vertical pixel coordinate changed) and
every frame with an absent current or previous grid position returns fraction 0
and leaves `remainingMoveTime` equal to 0 immediately after the call. -/
theorem sharp_or_absent_frame_clears_move (cmt tsf : ℚ) (st : SmoothState)
    (currPos : Option Position) (coords : Coordinates)
    (h : sharpOrAbsentFrame st currPos coords) :
    (handleSmoothTyping cmt st currPos coords tsf).1 = 0 ∧
    (handleSmoothTyping cmt st currPos coords tsf).2.remainingMoveTime = 0 := by
  obtain ⟨pp, pc, pr⟩ := st
  rcases currPos with _ | curr
  · rw [handleSmoothTyping_of_absent cmt tsf _ none coords (Or.inl rfl)]
    exact ⟨rfl, rfl⟩
  · rcases pp with _ | prev
    · rw [handleSmoothTyping_of_absent cmt tsf _ _ coords (Or.inr rfl)]
      exact ⟨rfl, rfl⟩
    · simp only [sharpOrAbsentFrame] at h
      have h0 := classifyMove_of_sharp cmt ⟨some prev, pc, pr⟩ prev curr coords h
      rw [handleSmoothTyping_of_nonpos cmt tsf _ curr prev coords rfl (le_of_eq h0)]
      exact ⟨rfl, rfl⟩

theorem sharp_or_absent_frame_clears_move_witness :
    sharpOrAbsentFrame ⟨some ⟨0, 0⟩, ⟨0, 0⟩, 40⟩ (some ⟨0, 5⟩) ⟨33, 0⟩ ∧
    (handleSmoothTyping 80 ⟨some ⟨0, 0⟩, ⟨0, 0⟩, 40⟩ (some ⟨0, 5⟩) ⟨33, 0⟩ 16).1 = 0 ∧
    (handleSmoothTyping 80 ⟨some ⟨0, 0⟩, ⟨0, 0⟩, 40⟩
        (some ⟨0, 5⟩) ⟨33, 0⟩ 16).2.remainingMoveTime = 0 :=
  ⟨by norm_num [sharpOrAbsentFrame],
   sharp_or_absent_frame_clears_move 80 16 _ _ _ (by norm_num [sharpOrAbsentFrame])⟩


/-- C1 (amended): when the grid positions are present and classification leaves
a positive remaining duration, the returned fraction is
`min (timeSinceLastFrame / remaining) 1`; the new remaining duration is
`max 0 (remaining - timeSinceLastFrame)` for a nonzero `timeSinceLastFrame`,
but is cleared to 0 when `timeSinceLastFrame = 0`.  When the remaining
duration after classification is nonpositive, or a grid position is absent,
the fraction is 0.  `prevCursorPos` is always updated to the current grid
position. -/
theorem smooth_move_update_laws (cmt tsf : ℚ) (st : SmoothState)
    (currPos : Option Position) (coords : Coordinates) :
    (∀ curr prev, currPos = some curr → st.prevCursorPos = some prev →
      (0 < classifyMove cmt st prev curr coords →
        (handleSmoothTyping cmt st currPos coords tsf).1 =
          min (tsf / classifyMove cmt st prev curr coords) 1 ∧
        (handleSmoothTyping cmt st currPos coords tsf).2.remainingMoveTime =
          (if tsf = 0 then 0
           else max 0 (classifyMove cmt st prev curr coords - tsf))) ∧
      (classifyMove cmt st prev curr coords ≤ 0 →
        (handleSmoothTyping cmt st currPos coords tsf).1 = 0)) ∧
    ((currPos = none ∨ st.prevCursorPos = none) →
      (handleSmoothTyping cmt st currPos coords tsf).1 = 0) ∧
    (handleSmoothTyping cmt st currPos coords tsf).2.prevCursorPos = currPos := by
  refine ⟨?_, ?_, handleSmoothTyping_prevCursorPos cmt tsf st currPos coords⟩
  · rintro curr prev rfl hp
    constructor
    · intro hC
      rw [handleSmoothTyping_of_pos cmt tsf st curr prev coords hp hC]
      refine ⟨rfl, ?_⟩
      simp only [min_div_one_eq_zero_iff tsf _ hC]
    · intro hC
      rw [handleSmoothTyping_of_nonpos cmt tsf st curr prev coords hp hC]
  · intro h
    rw [handleSmoothTyping_of_absent cmt tsf st currPos coords h]

/-- C1 counterexample: a frame with `timeSinceLastFrame = 0` and a positive
remaining duration (80, left by classification) clears `remainingMoveTime`
to 0, while the claim predicts `max 0 (80 - 0) = 80`. -/
theorem smooth_move_update_laws_counterexample :
    0 < classifyMove 80 ⟨some ⟨0, 0⟩, ⟨0, 0⟩, 80⟩ ⟨0, 0⟩ ⟨0, 0⟩ ⟨0, 0⟩ ∧
    (handleSmoothTyping 80 ⟨some ⟨0, 0⟩, ⟨0, 0⟩, 80⟩
        (some ⟨0, 0⟩) ⟨0, 0⟩ 0).2.remainingMoveTime = 0 ∧
    (0 : ℚ) ≠ max 0 (80 - 0) := by
  refine ⟨by norm_num [classifyMove], ?_, by norm_num⟩
  norm_num [handleSmoothTyping, classifyMove, returnStatement]

theorem smooth_move_update_laws_witness :
    0 < classifyMove 80 ⟨some ⟨0, 0⟩, ⟨0, 0⟩, 64⟩ ⟨0, 0⟩ ⟨0, 0⟩ ⟨0, 0⟩ ∧
    (handleSmoothTyping 80 ⟨some ⟨0, 0⟩, ⟨0, 0⟩, 64⟩ (some ⟨0, 0⟩) ⟨0, 0⟩ 16).1 =
      min (16 / classifyMove 80 ⟨some ⟨0, 0⟩, ⟨0, 0⟩, 64⟩ ⟨0, 0⟩ ⟨0, 0⟩ ⟨0, 0⟩) 1 ∧
    (handleSmoothTyping 80 ⟨some ⟨0, 0⟩, ⟨0, 0⟩, 64⟩
        (some ⟨0, 0⟩) ⟨0, 0⟩ 16).2.remainingMoveTime =
      (if (16 : ℚ) = 0 then 0
       else max 0 (classifyMove 80 ⟨some ⟨0, 0⟩, ⟨0, 0⟩, 64⟩ ⟨0, 0⟩ ⟨0, 0⟩ ⟨0, 0⟩ - 16)) ∧
    (handleSmoothTyping 80 ⟨some ⟨0, 0⟩, ⟨0, 0⟩, 64⟩
        (some ⟨0, 0⟩) ⟨0, 0⟩ 16).2.prevCursorPos = some ⟨0, 0⟩ := by
  have h := smooth_move_update_laws 80 16 ⟨some ⟨0, 0⟩, ⟨0, 0⟩, 64⟩ (some ⟨0, 0⟩) ⟨0, 0⟩
  have h1 := (h.1 ⟨0, 0⟩ ⟨0, 0⟩ rfl rfl).1 (by norm_num [classifyMove])
  exact ⟨by norm_num [classifyMove], h1.1, h1.2, h.2.2⟩


/-- C3 (amended): a column step of exactly 1 on the same line with unchanged
vertical pixel coordinate makes classification set the remaining duration to
the full configured `characterMovementTime`, whatever leftover duration was in
flight (no accumulation); on a frame with no positional change and positive
`timeSinceLastFrame`, the remaining duration becomes
`max 0 (remaining - timeSinceLastFrame)` and never increases.  (A frame with
`timeSinceLastFrame = 0` instead clears the duration to 0, and a negative
`timeSinceLastFrame` increases it; see the counterexample.) -/
theorem smooth_step_resets_duration (cmt tsf : ℚ) (st : SmoothState)
    (prev curr c : Position) (coords : Coordinates) :
    (|prev.ch - curr.ch| = 1 → prev.line = curr.line →
      coords.top = st.prevCursorCoords.top →
      classifyMove cmt st prev curr coords = cmt) ∧
    (st.prevCursorPos = some c → 0 ≤ st.remainingMoveTime → 0 < tsf →
      (handleSmoothTyping cmt st (some c) coords tsf).2.remainingMoveTime =
        max 0 (st.remainingMoveTime - tsf) ∧
      (handleSmoothTyping cmt st (some c) coords tsf).2.remainingMoveTime ≤
        st.remainingMoveTime) := by
  constructor
  · intro h1 h2 h3
    unfold classifyMove
    rw [if_neg, if_pos, if_neg]
    · simp [h3]
    · refine ⟨h1, ?_⟩
      simp [sub_eq_zero, h2]
    · rintro (⟨_, hc⟩ | hc)
      · exact hc h1
      · rw [h2] at hc
        simp at hc
  · intro hp h0 htsf
    have hcls := classifyMove_self cmt st c coords
    rcases lt_or_eq_of_le h0 with hpos | hzero
    · have hC : 0 < classifyMove cmt st c c coords := by rw [hcls]; exact hpos
      rw [handleSmoothTyping_of_pos cmt tsf st c c coords hp hC]
      have hmin : ¬ min (tsf / classifyMove cmt st c c coords) 1 = 0 := by
        rw [min_div_one_eq_zero_iff tsf _ hC]
        exact ne_of_gt htsf
      rw [hcls] at hmin
      simp only [hcls, if_neg hmin]
      refine ⟨by trivial, ?_⟩
      exact max_le h0 (sub_le_self _ (le_of_lt htsf))
    · have hC : classifyMove cmt st c c coords ≤ 0 := by rw [hcls, ← hzero]
      rw [handleSmoothTyping_of_nonpos cmt tsf st c c coords hp hC]
      constructor
      · show (0 : ℚ) = max 0 (st.remainingMoveTime - tsf)
        rw [← hzero, max_eq_left]
        simp [le_of_lt htsf]
      · show (0 : ℚ) ≤ st.remainingMoveTime
        exact h0

/-- C3 counterexample: on a no-movement frame with remaining duration 80 and
`timeSinceLastFrame = -16` (wall clock stepping backwards), the remaining
duration *increases* to 96, violating "it never increases". -/
theorem smooth_step_resets_duration_counterexample :
    (handleSmoothTyping 80 ⟨some ⟨0, 0⟩, ⟨0, 0⟩, 80⟩
        (some ⟨0, 0⟩) ⟨0, 0⟩ (-16)).2.remainingMoveTime = 96 ∧
    ¬ ((96 : ℚ) ≤ 80) := by
  constructor
  · norm_num [handleSmoothTyping, classifyMove, returnStatement]
  · norm_num

theorem smooth_step_resets_duration_witness :
    |(0 : Int) - 1| = 1 ∧
    classifyMove 80 ⟨some ⟨0, 0⟩, ⟨0, 0⟩, 33⟩ ⟨0, 0⟩ ⟨0, 1⟩ ⟨10, 0⟩ = 80 ∧
    (0 : ℚ) ≤ 64 ∧ (0 : ℚ) < 16 ∧
    (handleSmoothTyping 80 ⟨some ⟨0, 0⟩, ⟨0, 0⟩, 64⟩
        (some ⟨0, 0⟩) ⟨0, 0⟩ 16).2.remainingMoveTime = max 0 (64 - 16) := by
  have h := smooth_step_resets_duration 80 16 ⟨some ⟨0, 0⟩, ⟨0, 0⟩, 33⟩ ⟨0, 0⟩ ⟨0, 1⟩ ⟨0, 0⟩ ⟨10, 0⟩
  have h2 := smooth_step_resets_duration 80 16 ⟨some ⟨0, 0⟩, ⟨0, 0⟩, 64⟩ ⟨0, 0⟩ ⟨0, 1⟩ ⟨0, 0⟩ ⟨0, 0⟩
  exact ⟨by norm_num, h.1 (by norm_num) rfl rfl,
    by norm_num, by norm_num,
    (h2.2 rfl (by norm_num) (by norm_num)).1⟩

/-- C5 (amended): for every call with a nonnegative `timeSinceLastFrame`
(and any state), the returned interpolation fraction lies in [0, 1].  (A
negative `timeSinceLastFrame` breaks the lower bound; see the
counterexample.) -/
theorem fraction_in_unit_interval (cmt tsf : ℚ) (st : SmoothState)
    (currPos : Option Position) (coords : Coordinates) (htsf : 0 ≤ tsf) :
    0 ≤ (handleSmoothTyping cmt st currPos coords tsf).1 ∧
    (handleSmoothTyping cmt st currPos coords tsf).1 ≤ 1 := by
  rcases currPos with _ | curr
  · rw [handleSmoothTyping_of_absent cmt tsf st none coords (Or.inl rfl)]
    norm_num
  · rcases hp : st.prevCursorPos with _ | prev
    · rw [handleSmoothTyping_of_absent cmt tsf st _ coords (Or.inr hp)]
      norm_num
    · rcases le_or_lt (classifyMove cmt st prev curr coords) 0 with hC | hC
      · rw [handleSmoothTyping_of_nonpos cmt tsf st curr prev coords hp hC]
        norm_num
      · rw [handleSmoothTyping_of_pos cmt tsf st curr prev coords hp hC]
        refine ⟨le_min (div_nonneg htsf (le_of_lt hC)) zero_le_one, min_le_right _ _⟩

/-- C5 counterexample: with `timeSinceLastFrame = -16` and a freshly reset
remaining duration of 80 the fraction is `min (-16/80) 1 = -1/5`, outside
[0, 1]. -/
theorem fraction_in_unit_interval_counterexample :
    (handleSmoothTyping 80 ⟨some ⟨0, 0⟩, ⟨0, 0⟩, 0⟩ (some ⟨0, 1⟩) ⟨0, 0⟩ (-16)).1 =
      -(1 / 5) ∧
    ¬ ((0 : ℚ) ≤ -(1 / 5)) := by
  constructor
  · norm_num [handleSmoothTyping, classifyMove, returnStatement]
  · norm_num

theorem fraction_in_unit_interval_witness :
    (0 : ℚ) ≤ 16 ∧
    0 ≤ (handleSmoothTyping 80 ⟨some ⟨0, 0⟩, ⟨0, 0⟩, 0⟩ (some ⟨0, 1⟩) ⟨0, 0⟩ 16).1 ∧
    (handleSmoothTyping 80 ⟨some ⟨0, 0⟩, ⟨0, 0⟩, 0⟩ (some ⟨0, 1⟩) ⟨0, 0⟩ 16).1 ≤ 1 :=
  ⟨by norm_num,
   (fraction_in_unit_interval 80 16 _ _ _ (by norm_num)).1,
   (fraction_in_unit_interval 80 16 _ _ _ (by norm_num)).2⟩


lemma jsMod_nonneg_eq (a b : ℚ) (ha : 0 ≤ a) (hb : 0 < b) :
    jsMod a b = a - b * ⌊a / b⌋ := by
  unfold jsMod
  rw [if_pos (div_nonneg ha (le_of_lt hb))]

lemma jsMod_eq_self (a b : ℚ) (ha : 0 ≤ a) (hab : a < b) : jsMod a b = a := by
  have hb : 0 < b := lt_of_le_of_lt ha hab
  rw [jsMod_nonneg_eq a b ha hb]
  have hf : ⌊a / b⌋ = 0 := by
    rw [Int.floor_eq_zero_iff]
    exact ⟨div_nonneg ha (le_of_lt hb), (div_lt_one hb).mpr hab⟩
  rw [hf]
  simp

/-- C4: the blink engine returns 1 on a position change; otherwise, with
`elapsed = now - blinkStartTime - blinkDelay*1000`, it returns 1 while
`elapsed < 0`, returns 1 while `elapsed mod (blinkSpeed*1000)` is in the first
half of the period and 0 in the second half; the output is always 0 or 1, and
with `blinkDelay = 0` it is a 50% duty-cycle square wave of period
`blinkSpeed*1000` ms. -/
theorem blink_engine_law (blinkDelay blinkSpeed now : ℚ) (st : BlinkState)
    (changed : Bool) :
    ((blinkCursor blinkDelay blinkSpeed now st changed).1 = 0 ∨
     (blinkCursor blinkDelay blinkSpeed now st changed).1 = 1) ∧
    (changed = true → (blinkCursor blinkDelay blinkSpeed now st changed).1 = 1) ∧
    (changed = false → now - st.blinkStartTime - blinkDelay * 1000 < 0 →
      (blinkCursor blinkDelay blinkSpeed now st changed).1 = 1) ∧
    (changed = false → 0 ≤ now - st.blinkStartTime - blinkDelay * 1000 →
      0 < blinkSpeed →
      ((now - st.blinkStartTime - blinkDelay * 1000) -
          blinkSpeed * 1000 *
            ⌊(now - st.blinkStartTime - blinkDelay * 1000) / (blinkSpeed * 1000)⌋ <
          blinkSpeed * 1000 / 2 →
        (blinkCursor blinkDelay blinkSpeed now st changed).1 = 1) ∧
      (¬ ((now - st.blinkStartTime - blinkDelay * 1000) -
          blinkSpeed * 1000 *
            ⌊(now - st.blinkStartTime - blinkDelay * 1000) / (blinkSpeed * 1000)⌋ <
          blinkSpeed * 1000 / 2) →
        (blinkCursor blinkDelay blinkSpeed now st changed).1 = 0)) ∧
    (changed = false → blinkDelay = 0 → 0 < blinkSpeed →
      0 ≤ now - st.blinkStartTime → now - st.blinkStartTime < blinkSpeed * 1000 →
      (blinkCursor blinkDelay blinkSpeed now st changed).1 =
        (if now - st.blinkStartTime < blinkSpeed * 1000 / 2 then 1 else 0)) := by
  cases changed with
  | true =>
    refine ⟨Or.inr rfl, fun _ => rfl, ?_, ?_, ?_⟩ <;> (intro h; simp at h)
  | false =>
    have hP : 0 < blinkSpeed → 0 < blinkSpeed * 1000 := fun h => by positivity
    refine ⟨?_, ?_, ?_, ?_, ?_⟩
    · simp only [blinkCursor, if_false, Bool.false_eq_true]
      split_ifs <;> simp
    · intro h; simp at h
    · intro _ h
      simp only [blinkCursor, if_false, Bool.false_eq_true]
      rw [if_pos h]
    · intro _ he hs
      have hmod := jsMod_nonneg_eq (now - st.blinkStartTime - blinkDelay * 1000)
        (blinkSpeed * 1000) he (hP hs)
      simp only [blinkCursor, if_false, Bool.false_eq_true]
      rw [if_neg (not_lt.mpr he), hmod]
      constructor
      · intro hlt; rw [if_pos hlt]
      · intro hge; rw [if_neg hge]
    · intro _ hd hs h0 hlt
      subst hd
      have he : now - st.blinkStartTime - 0 * 1000 = now - st.blinkStartTime := by ring
      have hmod := jsMod_eq_self (now - st.blinkStartTime) (blinkSpeed * 1000) h0 hlt
      simp only [blinkCursor, if_false, Bool.false_eq_true, he, hmod]
      rw [if_neg (not_lt.mpr h0)]
      split_ifs <;> rfl

theorem blink_engine_law_witness :
    (false = false) ∧ ((0 : ℚ) = 0) ∧ (0 : ℚ) < 1 ∧
    (0 : ℚ) ≤ 600 - 0 ∧ (600 : ℚ) - 0 < 1 * 1000 ∧
    (blinkCursor 0 1 600 ⟨0, false⟩ false).1 =
      (if (600 : ℚ) - 0 < 1 * 1000 / 2 then 1 else 0) :=
  ⟨rfl, rfl, by norm_num, by norm_num, by norm_num,
   (blink_engine_law 0 1 600 ⟨0, false⟩ false).2.2.2.2 rfl rfl (by norm_num)
     (by norm_num) (by norm_num)⟩

/-- C9: a blink-engine call with a position change returns opacity 1 and does
not modify `blinkStartTime` synchronously: it only marks the reset pending,
and the pending reset stores the current time at the next frame-callback
boundary. -/
theorem blink_reset_deferred (blinkDelay blinkSpeed now t : ℚ) (st : BlinkState) :
    (blinkCursor blinkDelay blinkSpeed now st true).1 = 1 ∧
    (blinkCursor blinkDelay blinkSpeed now st true).2.blinkStartTime =
      st.blinkStartTime ∧
    (blinkCursor blinkDelay blinkSpeed now st true).2.pendingReset = true ∧
    applyPendingReset t (blinkCursor blinkDelay blinkSpeed now st true).2 =
      { blinkStartTime := t, pendingReset := false } := by
  refine ⟨rfl, rfl, rfl, ?_⟩
  simp [blinkCursor, applyPendingReset]


/-- C7 counterexample: when the host storage returns no stored data, the
settings record produced by `loadSettings` carries
`cursorColor = some "#ffffff"`, not "absent" as the claim states. -/
theorem load_settings_defaults_counterexample :
    (loadSettings none).cursorColor = some "#ffffff" ∧
    (loadSettings none).cursorColor ≠ none := by
  exact ⟨rfl, by simp [loadSettings, DEFAULT_SETTINGS]⟩

/-- C7 (amended): with no stored data, or a stored record with every field
missing, `loadSettings` yields the documented defaults
`blinkSpeed = 1.2`, `blinkDelay = 0`, `characterMovementTime = 80`,
`cursorWidth = 1` — but `cursorColor` defaults to `"#ffffff"`, not to
absent/theme-default. -/
theorem load_settings_defaults :
    loadSettings none = DEFAULT_SETTINGS ∧
    loadSettings (some ⟨none, none, none, none, none⟩) = DEFAULT_SETTINGS ∧
    DEFAULT_SETTINGS.blinkSpeed = 1.2 ∧
    DEFAULT_SETTINGS.blinkDelay = 0 ∧
    DEFAULT_SETTINGS.characterMovementTime = 80 ∧
    DEFAULT_SETTINGS.cursorWidth = 1 ∧
    DEFAULT_SETTINGS.cursorColor = some "#ffffff" :=
  ⟨rfl, rfl, rfl, rfl, rfl, rfl, rfl⟩

/-- C10: `onload` calls `changeCursorColour()` with no argument, which picks
`#000000` on a light theme and `#ffffff` on a dark theme; the result is
independent of the loaded settings record, so a persisted custom cursor
colour (e.g. `#ff0000`) is not applied at plugin load. -/
theorem onload_colour_ignores_settings (s s2 : Settings) (containsThemeDark : Bool) :
    onloadCursorColour s containsThemeDark =
      (if containsThemeDark then "#ffffff" else "#000000") ∧
    onloadCursorColour s containsThemeDark = onloadCursorColour s2 containsThemeDark ∧
    onloadCursorColour { s with cursorColor := some "#ff0000" } containsThemeDark ≠
      "#ff0000" := by
  cases containsThemeDark <;>
    simp [onloadCursorColour, changeCursorColour]

/-- C6: with `characterMovementTime = 80` (the default) and 16 ms frames, a
single smooth column step with a (10px, 0px) coordinate delta yields the
fraction sequence 1/5, 1/4, 1/3, 1/2, 1 over the next five frames, and the
icon x coordinate reaches the true caret x (the full 10 px) exactly at the
fifth frame. -/
theorem typing_scenario_fractions :
    (runFrames DEFAULT_SETTINGS scenarioInitState scenarioInputs).2.map fractionOf =
      [1/5, 1/4, 1/3, 1/2, 1] ∧
    (runFrames DEFAULT_SETTINGS scenarioInitState scenarioInputs).2.map iconX =
      [2, 4, 6, 8, 10] ∧
    (runFrames DEFAULT_SETTINGS scenarioInitState scenarioInputs).1.prevIconCoords =
      some ⟨10, 0⟩ ∧
    (runFrames DEFAULT_SETTINGS scenarioInitState scenarioInputs).1.prevCursorCoords =
      ⟨10, 0⟩ := by
  norm_num [runFrames, frameTick, updateCursor, handleSmoothTyping, classifyMove,
    returnStatement, blinkCursor, jsMod, applyPendingReset, scenarioInputs,
    scenarioInitState, DEFAULT_SETTINGS, fractionOf, iconX]


/-- C8 counterexample: on the `!selection || !selection.focusNode` early
return, the tick records *neither* the true-caret point nor the icon point:
with the caret measured at (5, 5) the state keeps the stale (0, 0) values. -/
theorem tick_state_recording_counterexample :
    (updateCursor DEFAULT_SETTINGS ⟨16, false, true, ⟨0, 1⟩, ⟨5, 5⟩, 18⟩
        ⟨⟨0, 0⟩, some ⟨0, 0⟩, some ⟨0, 0⟩, 0, ⟨0, false⟩, 0⟩).2 =
      FrameOutput.noSelection ∧
    (updateCursor DEFAULT_SETTINGS ⟨16, false, true, ⟨0, 1⟩, ⟨5, 5⟩, 18⟩
        ⟨⟨0, 0⟩, some ⟨0, 0⟩, some ⟨0, 0⟩, 0, ⟨0, false⟩, 0⟩).1.prevCursorCoords =
      ⟨0, 0⟩ ∧
    (updateCursor DEFAULT_SETTINGS ⟨16, false, true, ⟨0, 1⟩, ⟨5, 5⟩, 18⟩
        ⟨⟨0, 0⟩, some ⟨0, 0⟩, some ⟨0, 0⟩, 0, ⟨0, false⟩, 0⟩).1.prevCursorCoords ≠
      ⟨5, 5⟩ ∧
    (updateCursor DEFAULT_SETTINGS ⟨16, false, true, ⟨0, 1⟩, ⟨5, 5⟩, 18⟩
        ⟨⟨0, 0⟩, some ⟨0, 0⟩, some ⟨0, 0⟩, 0, ⟨0, false⟩, 0⟩).1.prevIconCoords =
      some ⟨0, 0⟩ := by
  refine ⟨rfl, rfl, ?_, rfl⟩
  simp [updateCursor, Coordinates.mk.injEq]

/-- C8 (amended): the icon point and true-caret point are recorded into the
state only on the full rendered path; both early-return paths (no
selection/focus node, editor not focused) leave `prevCursorCoords`,
`prevIconCoords`, `prevCursorPos` and `remainingMoveTime` untouched, updating
only `prevFrameTime`. -/
theorem tick_state_recording (s : Settings) (inp : FrameInput) (st : AnimState) :
    ((inp.hasSelectionFocus = false ∨ inp.editorFocused = false) →
      (updateCursor s inp st).1.prevCursorCoords = st.prevCursorCoords ∧
      (updateCursor s inp st).1.prevIconCoords = st.prevIconCoords ∧
      (updateCursor s inp st).1.prevCursorPos = st.prevCursorPos ∧
      (updateCursor s inp st).1.remainingMoveTime = st.remainingMoveTime ∧
      (updateCursor s inp st).1.prevFrameTime = inp.now) ∧
    (inp.hasSelectionFocus = true → inp.editorFocused = true →
      (updateCursor s inp st).1.prevCursorCoords = inp.currCursorCoords ∧
      ∃ f css, (updateCursor s inp st).2 = FrameOutput.rendered f css ∧
        (updateCursor s inp st).1.prevIconCoords = some ⟨css.x, css.y⟩ ∧
        (updateCursor s inp st).1.prevFrameTime = inp.now) := by
  cases hsel : inp.hasSelectionFocus with
  | false =>
    have hu : updateCursor s inp st =
        ({ st with prevFrameTime := inp.now }, FrameOutput.noSelection) := by
      simp [updateCursor, hsel]
    rw [hu]
    exact ⟨fun _ => ⟨rfl, rfl, rfl, rfl, rfl⟩, fun h _ => by cases h⟩
  | true =>
    cases hed : inp.editorFocused with
    | false =>
      have hu : updateCursor s inp st =
          ({ st with prevFrameTime := inp.now }, FrameOutput.unfocused) := by
        simp [updateCursor, hsel, hed]
      rw [hu]
      refine ⟨fun _ => ⟨rfl, rfl, rfl, rfl, rfl⟩, fun _ h => by cases h⟩
    | true =>
      constructor
      · rintro (h | h)
        · cases h
        · cases h
      · intro _ _
        simp only [updateCursor, hsel, hed, Bool.true_eq_false, if_false]
        exact ⟨trivial, _, _, rfl, rfl, trivial⟩


theorem tick_state_recording_witness :
    ((false = false) ∨ (true = false)) ∧
    ((updateCursor DEFAULT_SETTINGS ⟨16, false, true, ⟨0, 0⟩, ⟨5, 5⟩, 18⟩
        ⟨⟨0, 0⟩, some ⟨0, 0⟩, some ⟨0, 0⟩, 0, ⟨0, false⟩, 0⟩).1.prevCursorCoords =
      ⟨0, 0⟩ ∧
    (updateCursor DEFAULT_SETTINGS ⟨16, false, true, ⟨0, 0⟩, ⟨5, 5⟩, 18⟩
        ⟨⟨0, 0⟩, some ⟨0, 0⟩, some ⟨0, 0⟩, 0, ⟨0, false⟩, 0⟩).1.prevIconCoords =
      some ⟨0, 0⟩ ∧
    (updateCursor DEFAULT_SETTINGS ⟨16, false, true, ⟨0, 0⟩, ⟨5, 5⟩, 18⟩
        ⟨⟨0, 0⟩, some ⟨0, 0⟩, some ⟨0, 0⟩, 0, ⟨0, false⟩, 0⟩).1.prevCursorPos =
      some ⟨0, 0⟩ ∧
    (updateCursor DEFAULT_SETTINGS ⟨16, false, true, ⟨0, 0⟩, ⟨5, 5⟩, 18⟩
        ⟨⟨0, 0⟩, some ⟨0, 0⟩, some ⟨0, 0⟩, 0, ⟨0, false⟩, 0⟩).1.remainingMoveTime =
      0 ∧
    (updateCursor DEFAULT_SETTINGS ⟨16, false, true, ⟨0, 0⟩, ⟨5, 5⟩, 18⟩
        ⟨⟨0, 0⟩, some ⟨0, 0⟩, some ⟨0, 0⟩, 0, ⟨0, false⟩, 0⟩).1.prevFrameTime =
      16) :=
  ⟨Or.inl rfl,
   (tick_state_recording DEFAULT_SETTINGS ⟨16, false, true, ⟨0, 0⟩, ⟨5, 5⟩, 18⟩
      ⟨⟨0, 0⟩, some ⟨0, 0⟩, some ⟨0, 0⟩, 0, ⟨0, false⟩, 0⟩).1 (Or.inl rfl)⟩

end SmoothTyping
